import Mathlib

/-!
Shallow embedding of the auto_laser simulation core (src/src/world.py,
src/src/control.py, src/src/sensors.py, src/src/cat.py, src/src/laser.py,
src/src/simulate.py) over exact rational arithmetic.

Conventions of the embedding:
* numpy 2-vectors become pairs of rationals (`Vec2`), with explicit
  componentwise operations (`add2`, `sub2`, `neg2`, `smul2`);
* `np.linalg.norm` enters the simulation only through order comparisons
  (strict `>` in the controller, `min`/`<` in the distance queries) and
  through the nonnegative distance values of `distance_to_boundary`; the
  embedding uses the squared Euclidean norm `normSq`, which is
  order-isomorphic to the norm on nonnegative values, so every comparison,
  argmin and emptiness outcome is preserved exactly;
* fallible Python code (raised exceptions) becomes `Except String`;
* `utils.py` and `constants.py` are not part of the sources, so the two
  values imported from them (`normalize`, `MILLISECOND`) are modelled from
  the spec where they are used (see the doc comments of
  `BoundarySegment.ray_intersection` and `MILLISECOND`).
-/

namespace AutoLaser

/-- Embedding of a numpy 2-vector with rational components. -/
abbrev Vec2 : Type := ℚ × ℚ

/-- Componentwise vector addition. -/
def add2 (a b : Vec2) : Vec2 := (a.1 + b.1, a.2 + b.2)

/-- Componentwise vector subtraction. -/
def sub2 (a b : Vec2) : Vec2 := (a.1 - b.1, a.2 - b.2)

/-- Componentwise vector negation, the numpy unary minus. -/
def neg2 (a : Vec2) : Vec2 := (-a.1, -a.2)

/-- Scalar multiplication of a 2-vector. -/
def smul2 (c : ℚ) (a : Vec2) : Vec2 := (c * a.1, c * a.2)

/-- Dot product of two 2-vectors, the `np.dot` of world.py. -/
def dot2 (a b : Vec2) : ℚ := a.1 * b.1 + a.2 * b.2

/-- Scalar 2D cross product, the `np.cross` of world.py:
`np.cross(a, b) = a[0]*b[1] - a[1]*b[0]`. -/
def cross2 (a b : Vec2) : ℚ := a.1 * b.2 - a.2 * b.1

/-- Squared Euclidean norm. The source computes `np.linalg.norm`; the
simulation consumes norms only through order comparisons and nonnegative
distance values, and squaring is a strictly monotone bijection on the
nonnegative reals, so the squared norm preserves every comparison the code
makes. -/
def normSq (v : Vec2) : ℚ := v.1 ^ 2 + v.2 ^ 2

/-- Perpendicular of a direction vector, world.py line 19:
`np.array([-ray_direction[1], ray_direction[0]])`. -/
def perp2 (d : Vec2) : Vec2 := (-d.2, d.1)

/-- Embedding of `BoundarySegment` (world.py lines 9-12): the two ordered
endpoints (`endpoints[0]`, `endpoints[1]`) and the inward unit normal. -/
structure BoundarySegment where
  endpoint0 : Vec2
  endpoint1 : Vec2
  inside_normal : Vec2
deriving DecidableEq

/-- Embedding of `BoundarySegment.ray_intersection` (world.py lines 14-34).
The source first rescales the direction with `utils.normalize`; `utils.py`
is absent from the sources, so that call is modelled from the spec: section
4.1 states the algorithm directly on the given direction (`v3 =
perpendicular(direction)`) and section 8 states the result is invariant to
rescaling the direction, so the model uses the raw direction; the resolved
point `origin + t1 * direction` is the same either way because `t1` scales
inversely with the length of the direction. In the parallel branch the
source sets the sentinel `t1 = t2 = -inf`, which fails the acceptance test
`t1 >= 0 and t2 >= 0 and t2 <= 1`, so the model returns `none` there. -/
def BoundarySegment.ray_intersection (s : BoundarySegment)
    (ray_origin ray_direction : Vec2) : Option Vec2 :=
  let v1 : Vec2 := sub2 ray_origin s.endpoint0
  let v2 : Vec2 := sub2 s.endpoint1 s.endpoint0
  let v3 : Vec2 := perp2 ray_direction
  if dot2 v2 v3 ≠ 0 then
    let t1 : ℚ := cross2 v2 v1 / dot2 v2 v3
    let t2 : ℚ := dot2 v1 v3 / dot2 v2 v3
    if t1 ≥ 0 ∧ t2 ≥ 0 ∧ t2 ≤ 1 then
      some (add2 ray_origin (smul2 t1 ray_direction))
    else none
  else none

/-- Embedding of the constructed state of `ClosedRoom` (world.py lines
56-80): width, height, and the origin, which `__init__` sets to zero and
`translate` overwrites. -/
structure ClosedRoom where
  width : ℚ
  height : ℚ
  origin : Vec2 := (0, 0)
deriving DecidableEq

/-- Half width of the room, world.py line 61. -/
def ClosedRoom.half_width (r : ClosedRoom) : ℚ := r.width / 2

/-- Half height of the room, world.py line 62. -/
def ClosedRoom.half_height (r : ClosedRoom) : ℚ := r.height / 2

/-- The four walls of a room (world.py lines 64-81), translated by the
room origin: bottom (inward normal up), right (inward normal left), top
(inward normal down), left (inward normal right). The constructor builds
them centered on zero with `origin = 0`; `translate` shifts the walls and
records the translation as the new origin, which for rooms translated at
most once (the only lifecycle the simulation uses) coincides with deriving
the walls from the origin. -/
def ClosedRoom.walls (r : ClosedRoom) : List BoundarySegment :=
  let bl : Vec2 := add2 r.origin (-r.half_width, -r.half_height)
  let br : Vec2 := add2 r.origin (r.half_width, -r.half_height)
  let tr : Vec2 := add2 r.origin (r.half_width, r.half_height)
  let tl : Vec2 := add2 r.origin (-r.half_width, r.half_height)
  [ ⟨bl, br, (0, 1)⟩, ⟨br, tr, (-1, 0)⟩, ⟨tr, tl, (0, -1)⟩, ⟨tl, bl, (1, 0)⟩ ]

/-- Embedding of `ClosedRoom.inside` (world.py lines 98-101): the offset of
the point from the room origin must be strictly within the half width and
strictly within the half height on both axes. -/
def ClosedRoom.inside (r : ClosedRoom) (point : Vec2) : Bool :=
  let within_width : Bool :=
    decide (point.1 - r.origin.1 < r.half_width) &&
    decide (point.1 - r.origin.1 > -r.half_width)
  let within_height : Bool :=
    decide (point.2 - r.origin.2 < r.half_height) &&
    decide (point.2 - r.origin.2 > -r.half_height)
  within_width && within_height

/-- Dynamic return value of `ClosedRoom.distance_to_boundary` (world.py
lines 103-115): the success path returns a scalar float, the no-hit path
returns the one-element Python list `[np.inf]`. -/
inductive DistanceResult where
  | scalar (d : ℚ)
  | list_inf
deriving DecidableEq

/-- Embedding of `ClosedRoom.distance_to_boundary` (world.py lines
103-115): cast the ray against all four walls, collect the distance from
the query point to each hit, and return the minimum, or the list `[inf]`
when no wall is hit. Distances are recorded as squared Euclidean norms
(see `normSq`): squaring is strictly monotone on the nonnegative values
involved, so which wall attains the minimum, whether the distance list is
empty, and every later `<` comparison in `House.distance_to_boundary` are
all preserved. -/
def ClosedRoom.distance_to_boundary (r : ClosedRoom) (point direction : Vec2) :
    DistanceResult :=
  let distances : List ℚ := r.walls.filterMap (fun wall =>
    (wall.ray_intersection point direction).map (fun ipt => normSq (sub2 ipt point)))
  match distances with
  | [] => .list_inf
  | d :: ds => .scalar (ds.foldl min d)

/-- Embedding of the running accumulator of `House.distance_to_boundary`:
either the initial builtin float `np.inf` (`inf`), or an `np.float64` hit
distance produced by a room's success path (`fin`). The distinction
matters because the two types behave differently when compared against the
list `[np.inf]` (see `house_distance_go`). -/
inductive PyFloat where
  | fin (q : ℚ)
  | inf
deriving DecidableEq

/-- Strict order on embedded floats: `np.inf` exceeds every finite value
and is not less than itself. -/
def PyFloat.lt : PyFloat → PyFloat → Bool
  | .fin a, .fin b => decide (a < b)
  | .fin _, .inf => true
  | .inf, _ => false

/-- Embedding of `House` (world.py lines 118-125): an ordered collection
of rooms. The constructor wraps a bare room into a one-element list, so
the model takes the list directly. -/
structure House where
  rooms : List ClosedRoom
deriving DecidableEq

/-- Embedding of `House.inside` (world.py lines 133-139): true when any
room contains the point. -/
def House.inside (h : House) (point : Vec2) : Bool :=
  h.rooms.any (fun room => room.inside point)

/-- Loop of `House.distance_to_boundary` (world.py lines 143-150): fold
the rooms over the running minimum, starting from the builtin float
`np.inf`. When a room returns the list `[inf]` instead of a scalar, the
comparison `intra_room_distance < distance` depends on the type of the
accumulator: against the builtin float (no hit recorded yet) both
`list.__lt__` and the reflected `float.__gt__` return `NotImplemented`,
so Python raises `TypeError`; against an `np.float64` (some earlier room
hit) the reflected `np.float64.__gt__` broadcasts the one-element list to
`array([False])`, whose truth value is `False`, so the missing room is
silently skipped and the accumulator is left unchanged. -/
def house_distance_go (point direction : Vec2) :
    List ClosedRoom → PyFloat → Except String PyFloat
  | [], distance => .ok distance
  | room :: rest, distance =>
    match room.distance_to_boundary point direction, distance with
    | .scalar q, d =>
        house_distance_go point direction rest
          (if (PyFloat.fin q).lt d then .fin q else d)
    | .list_inf, .inf => .error "TypeError: unorderable types list and float"
    | .list_inf, .fin d => house_distance_go point direction rest (.fin d)

/-- Embedding of `House.distance_to_boundary` (world.py lines 143-150). -/
def House.distance_to_boundary (h : House) (point direction : Vec2) :
    Except String PyFloat :=
  house_distance_go point direction h.rooms .inf

/-- Embedding of `ControlSignal` (control.py lines 10-13). The metadata
dictionary holds only provenance strings (producer name and mode) that
never influence control flow, so the model keeps the payload. -/
structure ControlSignal where
  payload : Vec2
deriving DecidableEq

/-- History update shared verbatim by `RandomController.__call__`
(control.py lines 77-80) and `RangingOracleController.__call__` (control.py
lines 128-131): when the history has reached the buffer size, `pop()`
removes the LAST element (Python `list.pop` with no argument), and the new
entry is then appended. -/
def record_history {α : Type} (buffer_size : ℕ) (history : List α) (x : α) :
    List α :=
  (if history.length ≥ buffer_size then history.dropLast else history) ++ [x]

/-- Embedding of the state of `RangingOracleController` (control.py lines
82-133): the mode string, the buffer size (default 1000), and the history,
which stores the committed payloads (`control.payload`, line 131). -/
structure RangingOracleController where
  mode : String := "target"
  buffer_size : ℕ := 1000
  history : List Vec2 := []
deriving DecidableEq

/-- Selection loop of `RangingOracleController.__call__` (control.py lines
117-125): starting from the zero vector, replace the running control by
the observation payload (mode "target") or its negation (mode "avoid")
whenever the payload has strictly larger norm than the running control;
any other mode raises `NotImplementedError` at the first replacement
attempt. Norm comparisons are embedded as squared-norm comparisons, which
agree with them on all vectors. -/
def ranging_select (mode : String) : List Vec2 → Vec2 → Except String Vec2
  | [], control => .ok control
  | observation :: rest, control =>
    if normSq observation > normSq control then
      if mode = "target" then ranging_select mode rest observation
      else if mode = "avoid" then ranging_select mode rest (neg2 observation)
      else .error "NotImplementedError"
    else ranging_select mode rest control

/-- Embedding of `RangingOracleController.__call__` (control.py lines
110-133) on an already-wrapped collection of observation payloads: run the
selection loop from the zero vector, then record the committed payload
into the history with the shared eviction step. Returns the control
signal together with the updated controller state. -/
def RangingOracleController.call (c : RangingOracleController)
    (state : List Vec2) :
    Except String (ControlSignal × RangingOracleController) :=
  match ranging_select c.mode state (0, 0) with
  | .error e => .error e
  | .ok control =>
    .ok (⟨control⟩,
      { c with history := record_history c.buffer_size c.history control })

/-- Embedding of the state of `RandomController` (control.py lines 55-80):
the gain, the buffer size (default 10), and the history, which stores the
produced control signals. -/
structure RandomController where
  gain : ℚ := 1
  buffer_size : ℕ := 10
  history : List ControlSignal := []
deriving DecidableEq

/-- Embedding of `RandomController.__call__` (control.py lines 74-80). The
source draws `npr.uniform(-1, 1, size=2)`; the embedding takes that draw
as an explicit oracle input and multiplies it by the gain, then records the
signal with the shared eviction step. The sensor state argument is ignored
by the source. -/
def RandomController.call (c : RandomController) (draw : Vec2) :
    ControlSignal × RandomController :=
  let control : ControlSignal := ⟨smul2 c.gain draw⟩
  (control, { c with history := record_history c.buffer_size c.history control })

/-- Iterated invocation of `RangingOracleController.__call__` over a
sequence of observation collections, threading the controller state and
propagating a raised error. -/
def ranging_calls (c : RangingOracleController) :
    List (List Vec2) → Except String RangingOracleController
  | [] => .ok c
  | state :: rest =>
    match c.call state with
    | .error e => .error e
    | .ok r => ranging_calls r.2 rest

/-- Iterated invocation of `RandomController.__call__` over a sequence of
oracle draws, threading the controller state. -/
def random_calls (c : RandomController) : List Vec2 → RandomController
  | [] => c
  | draw :: rest => random_calls (c.call draw).2 rest

/-- Modelled from the spec: `constants.py` is absent from the sources.
Section 4.6 fixes the timestep at 10 ms of simulated time in a
seconds-based unit system (`METER`, `SECOND` scale to 1), so `MILLISECOND`
is one thousandth. -/
def MILLISECOND : ℚ := 1 / 1000

/-- Embedding of `Simulator.timestep_duration` (simulate.py line 19):
`10.0 * MILLISECOND`. -/
def timestep_duration : ℚ := 10 * MILLISECOND

/-- Embedding of the state of a `Cat` (cat.py lines 28-87) together with
its construction-time config (cat.py lines 13-26), which the object keeps
as `self.config`: position and velocity start at the configured initial
values, and the controller is the injected `RangingOracleController` (the
controller class used by every scenario the claims quantify over; the
simulator is polymorphic in it). `Cat` defines no `reset` method and
inherits none from `MobileObject`. -/
structure Cat where
  initial_position : Vec2
  initial_velocity : Vec2
  position : Vec2
  velocity : Vec2
  max_speed : ℚ := 1
  controller : RangingOracleController
deriving DecidableEq

/-- Embedding of the attribute lookup `cat.reset()` performed by
`Simulator.reset` (simulate.py line 38): `Cat` (cat.py) defines no `reset`
method and `MobileObject` (mobile.py) declares none, so the lookup raises
`AttributeError`. -/
def Cat.reset_call (_ : Cat) : Except String Cat :=
  .error "AttributeError: Cat object has no attribute reset"

/-- Embedding of the state of a `Laser` (laser.py lines 27-91) together
with its config (laser.py lines 12-25). -/
structure Laser where
  initial_position : Vec2
  initial_velocity : Vec2
  position : Vec2
  velocity : Vec2
  max_speed : ℚ := 1
  controller : RangingOracleController
deriving DecidableEq

/-- Embedding of `Laser.reset` (laser.py lines 40-55): position and
velocity are reassigned from the config; the sensor is stateless and the
controller's `reset` is a no-op, so the control history persists. -/
def Laser.reset (l : Laser) : Laser :=
  { l with position := l.initial_position, velocity := l.initial_velocity }

/-- Embedding of the `RangingOracle.read` payload (sensors.py lines 55-56):
`target.position - subject.position`. -/
def ranging_oracle_read (subject_position target_position : Vec2) : Vec2 :=
  sub2 target_position subject_position

/-- Embedding of the state of `Simulator` (simulate.py lines 21-26). -/
structure Simulator where
  house : House
  cats : List Cat
  lasers : List Laser
  current_step : ℕ := 0
deriving DecidableEq

/-- Loop of `Simulator.reset` over the cats (simulate.py lines 37-38):
each delegated `cat.reset()` raises `AttributeError` (see
`Cat.reset_call`), which propagates out of the loop at the first cat. -/
def reset_cats : List Cat → Except String (List Cat)
  | [] => .ok []
  | cat :: rest =>
    match cat.reset_call with
    | .error e => .error e
    | .ok cat2 =>
      match reset_cats rest with
      | .error e => .error e
      | .ok rest2 => .ok (cat2 :: rest2)

/-- Embedding of `Simulator.reset` (simulate.py lines 35-42): zero the
step counter, then delegate to each cat's and each laser's `reset`. -/
def Simulator.reset (s : Simulator) : Except String Simulator :=
  match reset_cats s.cats with
  | .error e => .error e
  | .ok cats =>
    .ok { s with
          current_step := 0,
          cats := cats,
          lasers := s.lasers.map Laser.reset }

/-- Movement integration and containment check for one cat (simulate.py
lines 53-59): `position += velocity * timestep_duration`, then the run
fails fatally when the new position is not inside the house. -/
def move_cat (house : House) (cat : Cat) : Except String Cat :=
  let p : Vec2 := add2 cat.position (smul2 timestep_duration cat.velocity)
  if house.inside p then .ok { cat with position := p }
  else .error "Collision detected: tried to move cat out of the house"

/-- Movement loop over the cats (simulate.py lines 53-59). -/
def move_cats (house : House) : List Cat → Except String (List Cat)
  | [] => .ok []
  | cat :: rest =>
    match move_cat house cat with
    | .error e => .error e
    | .ok cat2 =>
      match move_cats house rest with
      | .error e => .error e
      | .ok rest2 => .ok (cat2 :: rest2)

/-- Movement integration and containment check for one laser (simulate.py
lines 62-68). -/
def move_laser (house : House) (laser : Laser) : Except String Laser :=
  let p : Vec2 := add2 laser.position (smul2 timestep_duration laser.velocity)
  if house.inside p then .ok { laser with position := p }
  else .error "Collision detected: tried to move laser out of the house"

/-- Movement loop over the lasers (simulate.py lines 62-68). -/
def move_lasers (house : House) : List Laser → Except String (List Laser)
  | [] => .ok []
  | laser :: rest =>
    match move_laser house laser with
    | .error e => .error e
    | .ok laser2 =>
      match move_lasers house rest with
      | .error e => .error e
      | .ok rest2 => .ok (laser2 :: rest2)

/-- Embedding of `np.argmin` over one row or column of the distance
matrix (simulate.py lines 78-86): the first index attaining the minimum;
numpy raises `ValueError` on an empty sequence. Distances are the squared
norms of the position differences (see `normSq`), whose first minimum
coincides with the first minimum of the norms. -/
def nearest_index (distances : List ℚ) : Except String ℕ :=
  match distances with
  | [] => .error "ValueError: attempt to get argmin of an empty sequence"
  | d :: ds => .ok ((d :: ds).indexOf (ds.foldl min d))

/-- Target assignment for the cats (simulate.py lines 71-81): each cat
targets the laser at the first minimum of its distance-matrix row. -/
def assign_cat_targets (lasers : List Laser) : List Cat → Except String (List ℕ)
  | [] => .ok []
  | cat :: rest =>
    match nearest_index (lasers.map
      (fun laser => normSq (sub2 cat.position laser.position))) with
    | .error e => .error e
    | .ok j =>
      match assign_cat_targets lasers rest with
      | .error e => .error e
      | .ok js => .ok (j :: js)

/-- Target assignment for the lasers (simulate.py lines 71-76 and 84-86):
each laser targets the cat at the first minimum of its distance-matrix
column. -/
def assign_laser_targets (cats : List Cat) : List Laser → Except String (List ℕ)
  | [] => .ok []
  | laser :: rest =>
    match nearest_index (cats.map
      (fun cat => normSq (sub2 cat.position laser.position))) with
    | .error e => .error e
    | .ok i =>
      match assign_laser_targets cats rest with
      | .error e => .error e
      | .ok is2 => .ok (i :: is2)

/-- Sense-control-update loop over the cats (simulate.py lines 89-92):
each cat reads its ranging oracle against its assigned target, passes the
single observation to its controller, and overwrites its velocity with
the returned payload. Positions do not change during this phase, so
consuming the target indices assigned beforehand is exact. -/
def control_cats (lasers : List Laser) : List Cat → List ℕ → Except String (List Cat)
  | [], _ => .ok []
  | _ :: _, [] => .error "IndexError: missing target assignment"
  | cat :: rest, j :: js =>
    match lasers.get? j with
    | none => .error "IndexError: list index out of range"
    | some target =>
      match cat.controller.call [ranging_oracle_read cat.position target.position] with
      | .error e => .error e
      | .ok r =>
        match control_cats lasers rest js with
        | .error e => .error e
        | .ok rest2 =>
          .ok ({ cat with velocity := r.1.payload, controller := r.2 } :: rest2)

/-- Sense-control-update loop over the lasers (simulate.py lines 95-98). -/
def control_lasers (cats : List Cat) : List Laser → List ℕ → Except String (List Laser)
  | [], _ => .ok []
  | _ :: _, [] => .error "IndexError: missing target assignment"
  | laser :: rest, i :: is2 =>
    match cats.get? i with
    | none => .error "IndexError: list index out of range"
    | some target =>
      match laser.controller.call [ranging_oracle_read laser.position target.position] with
      | .error e => .error e
      | .ok r =>
        match control_lasers cats rest is2 with
        | .error e => .error e
        | .ok rest2 =>
          .ok ({ laser with velocity := r.1.payload, controller := r.2 } :: rest2)

/-- Embedding of `Simulator.step` (simulate.py lines 48-99) without the
optional render-artifact capture (a pure observer of the state): move all
cats, move all lasers, assign both sides of the nearest-target relation
from the moved positions, run each cat's and then each laser's
sense-control-velocity update, and increment the step counter. Velocity
updates never touch positions, so assigning targets and updating
velocities in sequence reproduces the source's phase ordering exactly. -/
def Simulator.step (s : Simulator) : Except String Simulator :=
  match move_cats s.house s.cats with
  | .error e => .error e
  | .ok cats =>
    match move_lasers s.house s.lasers with
    | .error e => .error e
    | .ok lasers =>
      match assign_cat_targets lasers cats with
      | .error e => .error e
      | .ok cat_targets =>
        match assign_laser_targets cats lasers with
        | .error e => .error e
        | .ok laser_targets =>
          match control_cats lasers cats cat_targets with
          | .error e => .error e
          | .ok cats2 =>
            match control_lasers cats2 lasers laser_targets with
            | .error e => .error e
            | .ok lasers2 =>
              .ok { s with
                    cats := cats2,
                    lasers := lasers2,
                    current_step := s.current_step + 1 }

/-- The 5 by 5 meter room of the end-to-end scenario (spec section 8,
experiments/simple.py). -/
def demo_room : ClosedRoom := { width := 5, height := 5 }

/-- The house of the end-to-end scenario. -/
def demo_house : House := ⟨[demo_room]⟩

/-- The seeker of the end-to-end scenario: at (2, 2), zero initial
velocity, ranging-oracle controller in target mode. -/
def demo_cat : Cat :=
  { initial_position := (2, 2), initial_velocity := (0, 0),
    position := (2, 2), velocity := (0, 0),
    controller := { mode := "target" } }

/-- The evader of the end-to-end scenario: stationary at the origin,
ranging-oracle controller in avoid mode. -/
def demo_laser : Laser :=
  { initial_position := (0, 0), initial_velocity := (0, 0),
    position := (0, 0), velocity := (0, 0),
    controller := { mode := "avoid" } }

/-- The simulator of the end-to-end scenario. -/
def demo_sim : Simulator :=
  { house := demo_house, cats := [demo_cat], lasers := [demo_laser] }

/-- Spec-side definition for claim C5: the largest squared Euclidean norm
among a list of observation payloads, zero for the empty list. -/
def max_normSq : List Vec2 → ℚ
  | [] => 0
  | v :: t => max (normSq v) (max_normSq t)

/-- Spec-side definition for claim C5: the first observation payload
attaining the largest Euclidean norm of the list, the zero vector for the
empty list. -/
def first_max : List Vec2 → Vec2
  | [] => (0, 0)
  | v :: t => if normSq v = max_normSq (v :: t) then v else first_max t

lemma normSq_nonneg (v : Vec2) : 0 ≤ normSq v :=
  add_nonneg (sq_nonneg _) (sq_nonneg _)

lemma normSq_eq_zero_iff (v : Vec2) : normSq v = 0 ↔ v = (0, 0) := by
  unfold normSq
  constructor
  · intro h
    have h1 := (add_eq_zero_iff_of_nonneg (sq_nonneg v.1) (sq_nonneg v.2)).mp h
    have hx : v.1 = 0 := by
      have := h1.1
      nlinarith [sq_nonneg v.1]
    have hy : v.2 = 0 := by
      have := h1.2
      nlinarith [sq_nonneg v.2]
    exact Prod.ext hx hy
  · intro h
    rw [h]
    norm_num

lemma normSq_pos_iff (v : Vec2) : 0 < normSq v ↔ v ≠ (0, 0) := by
  rw [lt_iff_le_and_ne, and_iff_right (normSq_nonneg v), ne_comm,
    ne_eq, normSq_eq_zero_iff]

lemma normSq_neg2 (v : Vec2) : normSq (neg2 v) = normSq v := by
  unfold normSq neg2
  ring

lemma max_normSq_nonneg (l : List Vec2) : 0 ≤ max_normSq l := by
  induction l with
  | nil => exact le_refl 0
  | cons v t ih => exact le_trans ih (le_max_right _ _)

/-- C7: for every boundary segment, ray origin, and ray direction parallel
to the segment (the perpendicular test `dot(v2, v3)` equals zero),
`BoundarySegment.ray_intersection` returns an empty result, with no
spurious intersection at the ray origin and no error. -/
theorem ray_parallel_no_intersection (s : BoundarySegment) (o d : Vec2)
    (h : dot2 (sub2 s.endpoint1 s.endpoint0) (perp2 d) = 0) :
    s.ray_intersection o d = none := by
  unfold BoundarySegment.ray_intersection
  simp [h]

/-- C7 witness: a concrete horizontal segment and a horizontal ray. -/
theorem ray_parallel_no_intersection_witness :
    dot2 (sub2 (((1 : ℚ), (0 : ℚ)) : Vec2) ((0 : ℚ), (0 : ℚ)))
      (perp2 ((1 : ℚ), (0 : ℚ))) = 0 ∧
    BoundarySegment.ray_intersection ⟨(0, 0), (1, 0), (0, 1)⟩ (0, 5) (1, 0) = none :=
  ⟨by norm_num [dot2, sub2, perp2],
   ray_parallel_no_intersection ⟨(0, 0), (1, 0), (0, 1)⟩ (0, 5) (1, 0)
     (by norm_num [dot2, sub2, perp2])⟩

/-- C8: for every room of positive width and height, `ClosedRoom.inside`
holds exactly when the offset of the point from the room origin is
strictly less than the half width in absolute value on the x axis and
strictly less than the half height in absolute value on the y axis; in
particular every point exactly on the boundary is reported as not
inside. -/
theorem inside_iff_strict_interior (r : ClosedRoom) (hw : 0 < r.width)
    (hh : 0 < r.height) (p : Vec2) :
    r.inside p = true ↔
      |p.1 - r.origin.1| < r.width / 2 ∧ |p.2 - r.origin.2| < r.height / 2 := by
  unfold ClosedRoom.inside ClosedRoom.half_width ClosedRoom.half_height
  simp only [Bool.and_eq_true, decide_eq_true_eq, abs_lt, gt_iff_lt]
  constructor
  · rintro ⟨⟨h1, h2⟩, h3, h4⟩
    exact ⟨⟨by linarith, h1⟩, ⟨by linarith, h3⟩⟩
  · rintro ⟨⟨h1, h2⟩, h3, h4⟩
    exact ⟨⟨h2, by linarith⟩, ⟨h4, by linarith⟩⟩

/-- C8 witness: the 5 by 5 demo room and the point (1, 1). -/
theorem inside_iff_strict_interior_witness :
    (0 : ℚ) < demo_room.width ∧ (0 : ℚ) < demo_room.height ∧
      (demo_room.inside (1, 1) = true ↔
        |(1 : ℚ) - demo_room.origin.1| < demo_room.width / 2 ∧
        |(1 : ℚ) - demo_room.origin.2| < demo_room.height / 2) :=
  ⟨by norm_num [demo_room], by norm_num [demo_room],
   inside_iff_strict_interior demo_room (by norm_num [demo_room])
     (by norm_num [demo_room]) (1, 1)⟩

lemma perp2_smul2 (c : ℚ) (d : Vec2) : perp2 (smul2 c d) = smul2 c (perp2 d) := by
  unfold perp2 smul2
  exact Prod.ext (by ring) rfl

lemma dot2_smul2_right (c : ℚ) (a b : Vec2) :
    dot2 a (smul2 c b) = c * dot2 a b := by
  unfold dot2 smul2
  ring

lemma smul2_smul2 (a b : ℚ) (v : Vec2) :
    smul2 a (smul2 b v) = smul2 (a * b) v := by
  unfold smul2
  exact Prod.ext (by ring) (by ring)

/-- C9: for every boundary segment, ray origin, nonzero direction, and
positive scalar, `BoundarySegment.ray_intersection` returns the same
result (same emptiness, same intersection point) on the scaled direction
as on the original direction. -/
theorem ray_intersection_scale_invariant (s : BoundarySegment) (o d : Vec2)
    (c : ℚ) (hc : 0 < c) (hd : d ≠ (0, 0)) :
    s.ray_intersection o (smul2 c d) = s.ray_intersection o d := by
  simp only [BoundarySegment.ray_intersection]
  rw [perp2_smul2, dot2_smul2_right, dot2_smul2_right]
  have hc0 : c ≠ 0 := ne_of_gt hc
  by_cases h : dot2 (sub2 s.endpoint1 s.endpoint0) (perp2 d) = 0
  · simp [h]
  · have hcd : c * dot2 (sub2 s.endpoint1 s.endpoint0) (perp2 d) ≠ 0 :=
      mul_ne_zero hc0 h
    simp only [ne_eq, h, hcd, not_false_eq_true, if_true, ge_iff_le]
    set Y := cross2 (sub2 s.endpoint1 s.endpoint0) (sub2 o s.endpoint0) with hY
    set X := dot2 (sub2 o s.endpoint0) (perp2 d) with hX
    set D := dot2 (sub2 s.endpoint1 s.endpoint0) (perp2 d) with hD
    have ht2 : c * X / (c * D) = X / D := by
      rw [mul_div_mul_left X D hc0]
    have ht1 : Y / (c * D) = Y / D / c := by
      rw [mul_comm c D, ← div_div]
    have hcond : (0 ≤ Y / (c * D)) ↔ (0 ≤ Y / D) := by
      rw [ht1, le_div_iff₀ hc, zero_mul]
    have hpoint : smul2 (Y / (c * D)) (smul2 c d) = smul2 (Y / D) d := by
      rw [smul2_smul2, ht1, div_mul_cancel₀ _ hc0]
    rw [ht2, hpoint]
    by_cases hcnd : 0 ≤ Y / D
    · simp [hcond.mpr hcnd, hcnd]
    · rw [if_neg (fun hh => hcnd (hcond.mp hh.1)), if_neg (fun hh => hcnd hh.1)]

/-- C9 witness: a concrete vertical segment, a ray from the origin along
(1, 1), and the scale factor 2. -/
theorem ray_intersection_scale_invariant_witness :
    (0 : ℚ) < 2 ∧ (((1 : ℚ), (1 : ℚ)) : Vec2) ≠ (0, 0) ∧
    BoundarySegment.ray_intersection ⟨(3, -9), (3, 9), (-1, 0)⟩ (0, 0)
        (smul2 2 (1, 1)) =
      BoundarySegment.ray_intersection ⟨(3, -9), (3, 9), (-1, 0)⟩ (0, 0) (1, 1) :=
  ⟨by norm_num, by simp,
   ray_intersection_scale_invariant ⟨(3, -9), (3, 9), (-1, 0)⟩ (0, 0) (1, 1) 2
     (by norm_num) (by simp)⟩

lemma house_go_cons_scalar (p d : Vec2) (room : ClosedRoom)
    (rest : List ClosedRoom) (acc : PyFloat) (q : ℚ)
    (hr : room.distance_to_boundary p d = .scalar q) :
    house_distance_go p d (room :: rest) acc =
      house_distance_go p d rest
        (if (PyFloat.fin q).lt acc then .fin q else acc) := by
  simp only [house_distance_go, hr]

lemma house_go_cons_miss_inf (p d : Vec2) (room : ClosedRoom)
    (rest : List ClosedRoom)
    (hr : room.distance_to_boundary p d = .list_inf) :
    house_distance_go p d (room :: rest) .inf =
      .error "TypeError: unorderable types list and float" := by
  simp only [house_distance_go, hr]

lemma house_go_cons_miss_fin (p d : Vec2) (room : ClosedRoom)
    (rest : List ClosedRoom) (dq : ℚ)
    (hr : room.distance_to_boundary p d = .list_inf) :
    house_distance_go p d (room :: rest) (.fin dq) =
      house_distance_go p d rest (.fin dq) := by
  simp only [house_distance_go, hr]

lemma house_go_fin_no_error (p d : Vec2) :
    ∀ (rooms : List ClosedRoom) (dq : ℚ),
      ∃ s : ℚ, house_distance_go p d rooms (.fin dq) = .ok (.fin s) := by
  intro rooms
  induction rooms with
  | nil => intro dq; exact ⟨dq, rfl⟩
  | cons room rest ih =>
    intro dq
    rcases hr : room.distance_to_boundary p d with q | _
    · rw [house_go_cons_scalar p d room rest (.fin dq) q hr,
        ← apply_ite PyFloat.fin]
      exact ih _
    · rw [house_go_cons_miss_fin p d room rest dq hr]
      exact ih dq

/-- C10 (amended): for every house whose room list starts with a room
whose ray misses every wall, `House.distance_to_boundary` raises the
`TypeError` from comparing the list `[inf]` with the builtin float
`np.inf`; but once a room has hit, later missing rooms are silently
skipped (the comparison broadcasts to a falsy one-element array), so the
call errors exactly when the FIRST room misses, and whenever it returns a
value that value is a finite scalar and the first room's ray hit a
wall. -/
theorem house_distance_error_iff_first_miss (h : House) (p d : Vec2)
    (r : ClosedRoom) (rest : List ClosedRoom) (hrooms : h.rooms = r :: rest) :
    ((∃ e, h.distance_to_boundary p d = .error e) ↔
      r.distance_to_boundary p d = .list_inf) ∧
    (∀ q, h.distance_to_boundary p d = .ok q →
      (∃ s, q = .fin s) ∧ r.distance_to_boundary p d ≠ .list_inf) := by
  unfold House.distance_to_boundary
  rw [hrooms]
  rcases hr : r.distance_to_boundary p d with q0 | _
  · rw [house_go_cons_scalar p d r rest .inf q0 hr,
      if_pos (show (PyFloat.fin q0).lt PyFloat.inf = true from rfl)]
    obtain ⟨s, hs⟩ := house_go_fin_no_error p d rest q0
    rw [hs]
    refine ⟨iff_of_false ?_ (by simp), ?_⟩
    · rintro ⟨e, he⟩
      exact absurd he (by simp)
    · intro q hq
      have hq2 : q = PyFloat.fin s := by
        injection hq with h2
        exact h2.symm
      exact ⟨⟨s, hq2⟩, by simp⟩
  · rw [house_go_cons_miss_inf p d r rest hr]
    refine ⟨iff_of_true ⟨_, rfl⟩ rfl, ?_⟩
    intro q hq
    exact absurd hq (by simp)

/-- A 1 by 1 room translated far away to (100, 100), which a ray from the
origin along (1, 0) misses entirely. -/
def far_room : ClosedRoom := { width := 1, height := 1, origin := (100, 100) }

/-- C10 witness: the two-room house whose first room is the 5 by 5 demo
room; the ray from the origin along (1, 0) hits it, so the first room
does not miss, no error occurs, and the returned value is a finite
scalar. -/
theorem house_distance_error_iff_first_miss_witness :
    (House.mk [demo_room, far_room]).rooms = demo_room :: [far_room] ∧
    (((∃ e, (House.mk [demo_room, far_room]).distance_to_boundary (0, 0) (1, 0) =
        .error e) ↔
      demo_room.distance_to_boundary (0, 0) (1, 0) = .list_inf) ∧
    (∀ q, (House.mk [demo_room, far_room]).distance_to_boundary (0, 0) (1, 0) =
        .ok q →
      (∃ s, q = .fin s) ∧
        demo_room.distance_to_boundary (0, 0) (1, 0) ≠ .list_inf)) :=
  ⟨rfl,
   house_distance_error_iff_first_miss (House.mk [demo_room, far_room]) (0, 0)
     (1, 0) demo_room [far_room] rfl⟩

/-- C10 counterexample: a two-room house whose first room (the 5 by 5
demo room) is hit by the ray from the origin along (1, 0) at squared
distance 25/4, while the second room (a 1 by 1 room at (100, 100)) is
missed entirely and yields `[inf]`. `House.distance_to_boundary`
nevertheless returns the scalar, and in particular does not fail, refuting
the claim that it fails whenever SOME room's ray hits no wall. -/
theorem house_distance_scalar_despite_miss :
    far_room.distance_to_boundary (0, 0) (1, 0) = .list_inf ∧
    far_room ∈ (House.mk [demo_room, far_room]).rooms ∧
    (House.mk [demo_room, far_room]).distance_to_boundary (0, 0) (1, 0) =
      .ok (.fin (25 / 4)) ∧
    (∀ e, (House.mk [demo_room, far_room]).distance_to_boundary (0, 0) (1, 0) ≠
      .error e) := by
  have hfar : far_room.distance_to_boundary (0, 0) (1, 0) = .list_inf := by
    simp only [ClosedRoom.distance_to_boundary, ClosedRoom.walls, far_room,
      ClosedRoom.half_width, ClosedRoom.half_height]
    norm_num [BoundarySegment.ray_intersection, perp2, dot2, cross2, sub2,
      add2, smul2, normSq, List.filterMap_cons, Option.map]
  have hdemo : demo_room.distance_to_boundary (0, 0) (1, 0) =
      .scalar (25 / 4) := by
    simp only [ClosedRoom.distance_to_boundary, ClosedRoom.walls, demo_room,
      ClosedRoom.half_width, ClosedRoom.half_height]
    norm_num [BoundarySegment.ray_intersection, perp2, dot2, cross2, sub2,
      add2, smul2, normSq, List.filterMap_cons, Option.map]
  have hhouse : (House.mk [demo_room, far_room]).distance_to_boundary (0, 0) (1, 0) =
      .ok (.fin (25 / 4)) := by
    unfold House.distance_to_boundary
    rw [house_go_cons_scalar (0, 0) (1, 0) demo_room [far_room] .inf (25 / 4) hdemo,
      if_pos (show (PyFloat.fin (25 / 4)).lt PyFloat.inf = true from rfl),
      house_go_cons_miss_fin (0, 0) (1, 0) far_room [] (25 / 4) hfar,
      house_distance_go]
  refine ⟨hfar, by simp, hhouse, ?_⟩
  intro e
  rw [hhouse]
  simp

lemma normSq_zero : normSq ((0 : ℚ), (0 : ℚ)) = 0 := by
  unfold normSq
  norm_num

lemma ranging_select_invalid (m : String) (h1 : m ≠ "target") (h2 : m ≠ "avoid") :
    ∀ l : List Vec2,
      (∃ e, ranging_select m l (0, 0) = .error e) ↔ ∃ v ∈ l, v ≠ ((0 : ℚ), (0 : ℚ)) := by
  intro l
  induction l with
  | nil => simp [ranging_select]
  | cons x t ih =>
    unfold ranging_select
    rw [normSq_zero]
    by_cases hx : 0 < normSq x
    · have hxne : x ≠ (0, 0) := (normSq_pos_iff x).mp hx
      simp only [hx, if_true, gt_iff_lt, h1, h2, if_false, List.mem_cons]
      constructor
      · intro _; exact ⟨x, Or.inl rfl, hxne⟩
      · intro _; exact ⟨_, rfl⟩
    · have hx0 : x = (0, 0) :=
        (normSq_eq_zero_iff x).mp (le_antisymm (not_lt.mp hx) (normSq_nonneg x))
      simp only [gt_iff_lt, hx, if_false]
      rw [ih]
      constructor
      · rintro ⟨v, hv, hvne⟩; exact ⟨v, List.mem_cons_of_mem x hv, hvne⟩
      · rintro ⟨v, hv, hvne⟩
        rcases List.mem_cons.mp hv with heq | hmem
        · exact absurd (heq.trans hx0) hvne
        · exact ⟨v, hmem, hvne⟩

/-- C4 (amended): an invocation of `RangingOracleController.__call__` with
a mode that is neither "target" nor "avoid" raises `NotImplementedError`
exactly when the observation collection contains a payload of nonzero
norm; with only zero payloads (including the empty collection) the
comparison `norm(payload) > norm(control)` never fires and the call
returns a zero control signal instead of raising. -/
theorem invalid_mode_raises_iff (m : String) (h1 : m ≠ "target")
    (h2 : m ≠ "avoid") (buf : ℕ) (hist : List Vec2) (state : List Vec2) :
    (∃ e, RangingOracleController.call ⟨m, buf, hist⟩ state = .error e) ↔
      ∃ v ∈ state, v ≠ ((0 : ℚ), (0 : ℚ)) := by
  have hiff := ranging_select_invalid m h1 h2 state
  unfold RangingOracleController.call
  rcases hsel : ranging_select m state (0, 0) with e | control
  · rw [hsel] at hiff
    simp only [hsel]
    exact ⟨fun _ => hiff.mp ⟨e, rfl⟩, fun _ => ⟨e, rfl⟩⟩
  · rw [hsel] at hiff
    simp only [hsel]
    refine iff_of_false (by simp) (fun hr => ?_)
    rcases hiff.mpr hr with ⟨e, he⟩
    exact absurd he (by simp)

/-- C4 witness: the invalid mode "chaos" with a single nonzero
observation. -/
theorem invalid_mode_raises_iff_witness :
    ("chaos" ≠ "target" ∧ "chaos" ≠ "avoid") ∧
    ((∃ e, RangingOracleController.call ⟨"chaos", 1000, []⟩ [((1 : ℚ), (0 : ℚ))] = .error e) ↔
      ∃ v ∈ [(((1 : ℚ), (0 : ℚ)) : Vec2)], v ≠ ((0 : ℚ), (0 : ℚ))) :=
  ⟨⟨by decide, by decide⟩,
   invalid_mode_raises_iff "chaos" (by decide) (by decide) 1000 [] [(1, 0)]⟩

/-- C4 counterexample: in mode "chaos" a call on one zero observation
returns a zero control signal normally instead of raising, refuting the
claim that every invocation with an unrecognized mode raises. -/
theorem invalid_mode_zero_payload_returns :
    RangingOracleController.call ⟨"chaos", 1000, []⟩ [((0 : ℚ), (0 : ℚ))] =
      .ok (⟨(0, 0)⟩, ⟨"chaos", 1000, [(0, 0)]⟩) ∧
    "chaos" ≠ "target" ∧ "chaos" ≠ "avoid" := by
  refine ⟨?_, by decide, by decide⟩
  norm_num [RangingOracleController.call, ranging_select, normSq, record_history]

lemma ranging_select_target :
    ∀ (l : List Vec2) (c0 : Vec2),
      ranging_select "target" l c0 =
        .ok (if normSq c0 < max_normSq l then first_max l else c0) := by
  intro l
  induction l with
  | nil =>
    intro c0
    rw [ranging_select]
    simp only [max_normSq]
    rw [if_neg (not_lt.mpr (normSq_nonneg c0))]
  | cons x t ih =>
    intro c0
    rw [ranging_select]
    simp only [gt_iff_lt, if_true, reduceIte, first_max, max_normSq]
    by_cases hx : normSq c0 < normSq x
    · rw [if_pos hx, ih x,
        if_pos (lt_of_lt_of_le hx (le_max_left (normSq x) (max_normSq t)))]
      by_cases hxt : normSq x < max_normSq t
      · rw [if_pos hxt, if_neg (by rw [max_eq_right hxt.le]; exact ne_of_lt hxt)]
      · rw [if_neg hxt, if_pos (by rw [max_eq_left (not_lt.mp hxt)])]
    · rw [if_neg hx, ih c0]
      by_cases hct : normSq c0 < max_normSq t
      · have hxle : normSq x ≤ normSq c0 := not_lt.mp hx
        rw [if_pos hct,
          if_pos (lt_of_lt_of_le hct (le_max_right (normSq x) (max_normSq t))),
          if_neg (by
            rw [max_eq_right (le_of_lt (lt_of_le_of_lt hxle hct))]
            exact ne_of_lt (lt_of_le_of_lt hxle hct))]
      · rw [if_neg hct,
          if_neg (not_lt.mpr (max_le (not_lt.mp hx) (not_lt.mp hct)))]

lemma ranging_select_avoid :
    ∀ (l : List Vec2) (c0 : Vec2),
      ranging_select "avoid" l c0 =
        .ok (if normSq c0 < max_normSq l then neg2 (first_max l) else c0) := by
  intro l
  induction l with
  | nil =>
    intro c0
    rw [ranging_select]
    simp only [max_normSq]
    rw [if_neg (not_lt.mpr (normSq_nonneg c0))]
  | cons x t ih =>
    intro c0
    rw [ranging_select]
    by_cases hx : normSq c0 < normSq x
    · rw [if_pos (show normSq x > normSq c0 from hx),
        if_neg (show ¬("avoid" = "target") by decide),
        if_pos (show ("avoid" : String) = "avoid" from rfl),
        ih (neg2 x), normSq_neg2]
      simp only [first_max, max_normSq, apply_ite neg2]
      rw [if_pos (lt_of_lt_of_le hx (le_max_left (normSq x) (max_normSq t)))]
      by_cases hxt : normSq x < max_normSq t
      · rw [if_pos hxt, if_neg (by rw [max_eq_right hxt.le]; exact ne_of_lt hxt)]
      · rw [if_neg hxt, if_pos (by rw [max_eq_left (not_lt.mp hxt)])]
    · rw [if_neg (show ¬(normSq x > normSq c0) from hx), ih c0]
      simp only [first_max, max_normSq, apply_ite neg2]
      by_cases hct : normSq c0 < max_normSq t
      · have hxle : normSq x ≤ normSq c0 := not_lt.mp hx
        rw [if_pos hct,
          if_pos (lt_of_lt_of_le hct (le_max_right (normSq x) (max_normSq t))),
          if_neg (by
            rw [max_eq_right (le_of_lt (lt_of_le_of_lt hxle hct))]
            exact ne_of_lt (lt_of_le_of_lt hxle hct))]
      · rw [if_neg hct,
          if_neg (not_lt.mpr (max_le (not_lt.mp hx) (not_lt.mp hct)))]

lemma first_max_of_max_eq_zero (x : Vec2) (t : List Vec2)
    (h : max_normSq (x :: t) = 0) : first_max (x :: t) = (0, 0) := by
  have hx0 : normSq x = 0 := by
    refine le_antisymm ?_ (normSq_nonneg x)
    rw [← h]
    simp only [max_normSq]
    exact le_max_left _ _
  rw [first_max, h, hx0, if_pos rfl]
  exact (normSq_eq_zero_iff x).mp hx0

lemma neg2_zero : neg2 ((0 : ℚ), (0 : ℚ)) = (0, 0) := by
  unfold neg2
  norm_num

/-- C5: for every non-empty observation collection, the observation
selected by `RangingOracleController.__call__` is the first one attaining
the largest Euclidean norm (independent of the order of the remaining
observations), and the returned control payload is that observation's
payload in mode "target" and its negation in mode "avoid". -/
theorem ranging_call_selects_largest (state : List Vec2) (hne : state ≠ [])
    (buf : ℕ) (hist : List Vec2) :
    (∃ h2, RangingOracleController.call ⟨"target", buf, hist⟩ state =
        .ok (⟨first_max state⟩, ⟨"target", buf, h2⟩)) ∧
    (∃ h2, RangingOracleController.call ⟨"avoid", buf, hist⟩ state =
        .ok (⟨neg2 (first_max state)⟩, ⟨"avoid", buf, h2⟩)) := by
  rcases state with _ | ⟨x, t⟩
  · exact absurd rfl hne
  constructor
  · rw [RangingOracleController.call]
    rw [show (⟨"target", buf, hist⟩ : RangingOracleController).mode = "target" from rfl,
      ranging_select_target (x :: t) (0, 0), normSq_zero]
    by_cases hM : 0 < max_normSq (x :: t)
    · rw [if_pos hM]
      exact ⟨_, rfl⟩
    · have h0 : max_normSq (x :: t) = 0 :=
        le_antisymm (not_lt.mp hM) (max_normSq_nonneg _)
      rw [if_neg hM, first_max_of_max_eq_zero x t h0]
      exact ⟨_, rfl⟩
  · rw [RangingOracleController.call]
    rw [show (⟨"avoid", buf, hist⟩ : RangingOracleController).mode = "avoid" from rfl,
      ranging_select_avoid (x :: t) (0, 0), normSq_zero]
    by_cases hM : 0 < max_normSq (x :: t)
    · rw [if_pos hM]
      exact ⟨_, rfl⟩
    · have h0 : max_normSq (x :: t) = 0 :=
        le_antisymm (not_lt.mp hM) (max_normSq_nonneg _)
      rw [if_neg hM, first_max_of_max_eq_zero x t h0, neg2_zero]
      exact ⟨_, rfl⟩

/-- C5 witness: observations of norms 3 and 5; the norm-5 observation
(4, 3) is selected in both modes. -/
theorem ranging_call_selects_largest_witness :
    ([(((0 : ℚ), (3 : ℚ)) : Vec2), (4, 3)] ≠ []) ∧
    ((∃ h2, RangingOracleController.call ⟨"target", 1000, []⟩ [(0, 3), (4, 3)] =
        .ok (⟨first_max [(0, 3), (4, 3)]⟩, ⟨"target", 1000, h2⟩)) ∧
     (∃ h2, RangingOracleController.call ⟨"avoid", 1000, []⟩ [(0, 3), (4, 3)] =
        .ok (⟨neg2 (first_max [(0, 3), (4, 3)])⟩, ⟨"avoid", 1000, h2⟩))) :=
  ⟨by simp, ranging_call_selects_largest [(0, 3), (4, 3)] (by simp) 1000 []⟩

lemma take_len_sub_one_concat_getLastD (ps : List Vec2) (hne : ps ≠ []) :
    ps.take (ps.length - 1) ++ [ps.getLastD (0, 0)] = ps := by
  induction ps using List.reverseRecOn with
  | nil => exact absurd rfl hne
  | append_singleton l a _ =>
    have h1 : (l ++ [a]).length - 1 = l.length := by simp
    rw [h1, List.take_append_of_le_length (le_refl _), List.take_length]
    simp

lemma foldl_record_history (buf : ℕ) (hbuf : 1 ≤ buf) :
    ∀ ps : List Vec2,
      ps.foldl (record_history buf) [] =
        if ps.length ≤ buf then ps
        else ps.take (buf - 1) ++ [ps.getLastD (0, 0)] := by
  intro ps
  induction ps using List.reverseRecOn with
  | nil => simp
  | append_singleton l a ih =>
    rw [List.foldl_append, List.foldl_cons, List.foldl_nil, ih]
    rcases lt_trichotomy l.length buf with hlt | heq | hgt
    · rw [if_pos hlt.le, record_history, if_neg (not_le.mpr hlt),
        if_pos (by simp only [List.length_append, List.length_cons,
          List.length_nil]; omega)]
    · rw [if_pos heq.le, record_history, if_pos heq.ge,
        if_neg (by simp only [List.length_append, List.length_cons,
          List.length_nil]; omega),
        List.take_append_of_le_length (by omega), List.dropLast_eq_take, heq]
      simp
    · rw [if_neg (not_le.mpr hgt), record_history,
        if_pos (by
          simp only [List.length_append, List.length_cons, List.length_nil,
            List.length_take]
          have : buf - 1 ≤ l.length := by omega
          omega),
        List.dropLast_concat,
        if_neg (by simp only [List.length_append, List.length_cons,
          List.length_nil]; omega),
        List.take_append_of_le_length (by omega)]
      simp

/-- C3 (amended): the bounded history buffer shared by `RandomController`
and `RangingOracleController` evicts the MOST recently inserted element
when full (`list.pop()` removes the last element), not the first-inserted
one: recording into a full history drops its last element, and after any
sequence of recordings from an empty history of capacity at least one, the
history holds the earliest `capacity - 1` entries followed by the single
most recent entry. -/
theorem history_evicts_most_recent (buf : ℕ) (hbuf : 1 ≤ buf) :
    (∀ (h : List Vec2) (x : Vec2), buf ≤ h.length →
      record_history buf h x = h.dropLast ++ [x]) ∧
    (∀ ps : List Vec2, buf ≤ ps.length →
      ps.foldl (record_history buf) [] =
        ps.take (buf - 1) ++ [ps.getLastD (0, 0)]) := by
  constructor
  · intro h x hlen
    rw [record_history, if_pos hlen]
  · intro ps hlen
    rw [foldl_record_history buf hbuf ps]
    rcases eq_or_lt_of_le hlen with heq | hlt
    · rw [if_pos heq.ge, heq]
      exact (take_len_sub_one_concat_getLastD ps
        (by intro hnil; rw [hnil] at hlen; simp at hlen; omega)).symm
    · rw [if_neg (not_le.mpr hlt)]

/-- C3 witness: a full history of capacity 2 receiving a third entry drops
its last element. -/
theorem history_evicts_most_recent_witness :
    1 ≤ 2 ∧
    record_history 2 [(((1 : ℚ), (0 : ℚ)) : Vec2), (2, 0)] (3, 0) =
      [(((1 : ℚ), (0 : ℚ)) : Vec2), (2, 0)].dropLast ++ [(3, 0)] :=
  ⟨by decide,
   (history_evicts_most_recent 2 (by decide)).1 [(1, 0), (2, 0)] (3, 0) (by decide)⟩

/-- C3 counterexample: with capacity 2, recording the payloads (1,0),
(2,0), (3,0) through `RangingOracleController.__call__` leaves the history
[(1,0), (3,0)]: the evicted element is (2,0), the most recently inserted
one, not the first-inserted (1,0); front-eviction would instead leave
[(2,0), (3,0)]. -/
theorem history_front_eviction_counterexample :
    ranging_calls ⟨"target", 2, []⟩ [[(1, 0)], [(2, 0)], [(3, 0)]] =
      .ok ⟨"target", 2, [(1, 0), (3, 0)]⟩ ∧
    (⟨"target", 2, [(((1 : ℚ), (0 : ℚ)) : Vec2), (3, 0)]⟩ : RangingOracleController) ≠
      ⟨"target", 2, [(2, 0), (3, 0)]⟩ := by
  constructor
  · norm_num [ranging_calls, RangingOracleController.call, ranging_select,
      normSq, record_history]
  · norm_num [RangingOracleController.mk.injEq, Prod.ext_iff]

lemma record_history_length_le {α : Type} (buf : ℕ) (hbuf : 1 ≤ buf)
    (h : List α) (x : α) (hh : h.length ≤ buf) :
    (record_history buf h x).length ≤ buf := by
  rw [record_history]
  by_cases hfull : h.length ≥ buf
  · rw [if_pos hfull]
    simp only [List.length_append, List.length_dropLast, List.length_cons,
      List.length_nil]
    omega
  · rw [if_neg hfull]
    simp only [List.length_append, List.length_cons, List.length_nil]
    omega

lemma ranging_calls_history_le (buf : ℕ) (hbuf : 1 ≤ buf) :
    ∀ (inputs : List (List Vec2)) (c : RangingOracleController),
      c.buffer_size = buf → c.history.length ≤ buf →
      ∀ c2, ranging_calls c inputs = .ok c2 → c2.history.length ≤ buf := by
  intro inputs
  induction inputs with
  | nil =>
    intro c hb hh c2 hok
    rw [ranging_calls] at hok
    cases hok
    exact hh
  | cons s rest ih =>
    intro c hb hh c2 hok
    rw [ranging_calls] at hok
    rcases hcall : RangingOracleController.call c s with e | r
    · rw [hcall] at hok
      exact absurd hok (by simp)
    · rw [hcall] at hok
      rw [RangingOracleController.call] at hcall
      rcases hsel : ranging_select c.mode s (0, 0) with e2 | control
      · rw [hsel] at hcall
        exact absurd hcall (by simp)
      · rw [hsel] at hcall
        have hr : r = (⟨control⟩,
            { c with history := record_history c.buffer_size c.history control }) := by
          cases hcall
          rfl
        refine ih r.2 ?_ ?_ c2 hok
        · rw [hr]
          exact hb
        · rw [hr]
          exact hb ▸ record_history_length_le buf hbuf c.history control (hb ▸ hh)

lemma random_calls_history_le (buf : ℕ) (hbuf : 1 ≤ buf) :
    ∀ (draws : List Vec2) (c : RandomController),
      c.buffer_size = buf → c.history.length ≤ buf →
      (random_calls c draws).history.length ≤ buf := by
  intro draws
  induction draws with
  | nil =>
    intro c hb hh
    rw [random_calls]
    exact hh
  | cons d rest ih =>
    intro c hb hh
    rw [random_calls]
    refine ih (c.call d).2 ?_ ?_
    · exact hb
    · show (record_history c.buffer_size c.history ⟨smul2 c.gain d⟩).length ≤ buf
      exact hb ▸ record_history_length_le buf hbuf c.history _ (hb ▸ hh)

/-- C6: starting from an empty history, for any buffer capacity of at
least one and any sequence of `__call__` invocations, the history length
of a `RangingOracleController` (any mode, whenever the calls return) and
of a `RandomController` (any gain, any draws) never exceeds the
capacity. -/
theorem controller_history_bounded (buf : ℕ) (hbuf : 1 ≤ buf) :
    (∀ (m : String) (inputs : List (List Vec2)) (c2 : RangingOracleController),
      ranging_calls ⟨m, buf, []⟩ inputs = .ok c2 → c2.history.length ≤ buf) ∧
    (∀ (g : ℚ) (draws : List Vec2),
      (random_calls ⟨g, buf, []⟩ draws).history.length ≤ buf) := by
  constructor
  · intro m inputs c2 hok
    exact ranging_calls_history_le buf hbuf inputs ⟨m, buf, []⟩ rfl (by simp) c2 hok
  · intro g draws
    exact random_calls_history_le buf hbuf draws ⟨g, buf, []⟩ rfl (by simp)

/-- C6 witness: capacity 1 with two consecutive calls in each controller;
the lengths stay at 1. -/
theorem controller_history_bounded_witness :
    1 ≤ 1 ∧
    (⟨"target", 1, [(((2 : ℚ), (0 : ℚ)) : Vec2)]⟩ : RangingOracleController).history.length ≤ 1 ∧
    (random_calls ⟨1, 1, []⟩ [(1, 0), (2, 0)]).history.length ≤ 1 :=
  ⟨le_refl 1,
   (controller_history_bounded 1 (le_refl 1)).1 "target" [[(1, 0)], [(2, 0)]]
     ⟨"target", 1, [(2, 0)]⟩
     (by norm_num [ranging_calls, RangingOracleController.call, ranging_select,
        normSq, record_history]),
   (controller_history_bounded 1 (le_refl 1)).2 1 [(1, 0), (2, 0)]⟩

/-- C1: for every simulator holding at least one cat, `Simulator.reset`
raises `AttributeError` out of the delegated `cat.reset()` call (cat.py
defines no `reset` method), so no agent state is restored, regardless of
how many steps ran before. -/
theorem reset_raises_attribute_error (s : Simulator) (h : s.cats ≠ []) :
    s.reset = .error "AttributeError: Cat object has no attribute reset" := by
  rcases hc : s.cats with _ | ⟨c, rest⟩
  · exact absurd hc h
  · rw [Simulator.reset, hc]
    rfl

/-- C1 witness: the spec section 8 scenario simulator, which holds one
cat. -/
theorem reset_raises_attribute_error_witness :
    demo_sim.cats ≠ [] ∧
    demo_sim.reset = .error "AttributeError: Cat object has no attribute reset" :=
  ⟨by simp [demo_sim],
   reset_raises_attribute_error demo_sim (by simp [demo_sim])⟩

lemma demo_step_eval :
    demo_sim.step = .ok
      { house := demo_house,
        cats := [{ initial_position := (2, 2), initial_velocity := (0, 0),
                   position := (2, 2), velocity := (-2, -2),
                   controller := { mode := "target", buffer_size := 1000,
                                   history := [(-2, -2)] } }],
        lasers := [{ initial_position := (0, 0), initial_velocity := (0, 0),
                     position := (0, 0), velocity := (-2, -2),
                     controller := { mode := "avoid", buffer_size := 1000,
                                     history := [(-2, -2)] } }],
        current_step := 1 } := by
  norm_num [demo_sim, demo_cat, demo_laser, demo_house, demo_room,
    Simulator.step, move_cats, move_cat, move_lasers, move_laser,
    House.inside, ClosedRoom.inside, ClosedRoom.half_width,
    ClosedRoom.half_height, assign_cat_targets, assign_laser_targets,
    nearest_index, control_cats, control_lasers,
    RangingOracleController.call, ranging_select, ranging_oracle_read,
    normSq, record_history, sub2, add2, smul2, neg2,
    timestep_duration, MILLISECOND,
    show (("avoid" : String) = "target") = False from eq_false (by decide)]

/-- C2 counterexample: in the section 8 scenario (5 by 5 room, seeker at
(2,2) in "target" mode, evader at the origin in "avoid" mode), the
evader's velocity after one step is (-2,-2) — the negation of the
cat-minus-laser displacement — not (2,2) as claimed. -/
theorem demo_step_evader_velocity_not_two_two :
    demo_sim.step.map (fun s => s.lasers.map Laser.velocity) ≠
      .ok [(((2 : ℚ), (2 : ℚ)) : Vec2)] := by
  rw [demo_step_eval]
  norm_num [Except.map, Prod.ext_iff]

/-- C2 (amended): in the section 8 scenario, after exactly one step the
seeker's velocity is (-2,-2) (toward the evader) and the evader's
velocity is also (-2,-2) (away from the seeker, the negation of its
observation (2,2)). -/
theorem demo_step_velocities :
    demo_sim.step.map
        (fun s => (s.cats.map Cat.velocity, s.lasers.map Laser.velocity)) =
      .ok ([((-2 : ℚ), (-2 : ℚ))], [((-2 : ℚ), (-2 : ℚ))]) := by
  rw [demo_step_eval]
  rfl

end AutoLaser
